import Mathlib

/-!
Verification of the Query Normalization & State Aggregation layer of the
warden-yield-agent repository: a shallow embedding of
src/yield_agent/state.py, src/yield_agent/nodes/input_parser.py and
src/yield_agent/nodes/response_formatter.py, together with theorems about
the embedded definitions.

Conventions of the embedding:
- Python floats are modelled as rationals.
- Python strings are Lean Strings; the string predicates used by the code
  (lower/upper case, digits, letters, whitespace, word characters) are
  modelled on their ASCII fragment, which covers every vocabulary word and
  every input appearing in the claims.
- Fallible external calls (the Groq classification call) are modelled by an
  explicit Option-typed outcome: none models the call raising, some a the
  call returning a response whose content is a.
- Python set/dict iteration: dicts iterate in insertion order (guaranteed
  by the language), so dict-backed tables keep their declaration order.
  Set iteration order is NOT specified by the language; functions that
  iterate over the KNOWN_TOKENS set therefore take the iteration order as
  an explicit parameter ranging over permutations of the declared elements.
-/

set_option maxRecDepth 8000

namespace YieldAgent

/-! ### ASCII character helpers used by the embedded string operations -/

def isDigitC (c : Char) : Bool := 48 ≤ c.toNat && c.toNat ≤ 57

def isAlphaC (c : Char) : Bool :=
  (65 ≤ c.toNat && c.toNat ≤ 90) || (97 ≤ c.toNat && c.toNat ≤ 122)

/-- Python's regex class matches spaces, tabs, newlines, carriage returns,
form feeds and vertical tabs. -/
def isSpaceC (c : Char) : Bool :=
  c.toNat = 32 || c.toNat = 9 || c.toNat = 10 || c.toNat = 13 ||
  c.toNat = 12 || c.toNat = 11

/-- A regex word character: letter, digit or underscore. -/
def isWordC (c : Char) : Bool := isDigitC c || isAlphaC c || c.toNat = 95

def lowerC (c : Char) : Char :=
  if 65 ≤ c.toNat && c.toNat ≤ 90 then Char.ofNat (c.toNat + 32) else c

def upperC (c : Char) : Char :=
  if 97 ≤ c.toNat && c.toNat ≤ 122 then Char.ofNat (c.toNat - 32) else c

/-- Python str.lower() (ASCII fragment). -/
def lowerStr (s : String) : String := String.mk (s.data.map lowerC)

/-- Python str.upper() (ASCII fragment). -/
def upperStr (s : String) : String := String.mk (s.data.map upperC)

def isPrefixList : List Char → List Char → Bool
  | [], _ => true
  | _ :: _, [] => false
  | a :: as, b :: bs => a == b && isPrefixList as bs

/-- Python's substring containment test: containsList hay needle models
needle in hay. -/
def containsList : List Char → List Char → Bool
  | [], needle => needle.isEmpty
  | c :: t, needle => isPrefixList needle (c :: t) || containsList t needle

def containsStr (hay needle : String) : Bool := containsList hay.data needle.data

/-- Python sep.join(xs). -/
def pyJoin (sep : String) : List String → String
  | [] => ""
  | [x] => x
  | x :: y :: t => x ++ sep ++ pyJoin sep (y :: t)

def repeatC (c : Char) (n : Nat) : String := String.mk (List.replicate n c)

/-- Python left-justification s.ljust-style padding used by the f-string
width specifiers: pads with spaces on the right up to width w, never
truncates. -/
def padRight (s : String) (w : Nat) : String :=
  s ++ repeatC ' ' (w - s.length)

/-- Python slicing s[:n]. -/
def pyTake (n : Nat) (s : String) : String := String.mk (s.data.take n)

/-! ### Decimal rendering of numbers (Python str/format on int and float) -/

def digitChar (n : Nat) : Char := ("0123456789".data).getD n '0'

def natDigitsRev : Nat → Nat → List Char
  | 0, _ => []
  | fuel + 1, n => digitChar (n % 10) :: (if n < 10 then [] else natDigitsRev fuel (n / 10))

def natDigits (n : Nat) : List Char := (natDigitsRev (n + 1) n).reverse

/-- Python str(n) for a nonnegative integer. -/
def natStr (n : Nat) : String := String.mk (natDigits n)

/-- Inserts a comma after every third digit of a reversed digit list
(used for the comma grouping of Python format specifiers). -/
def groupRevAux : Nat → List Char → List Char
  | _, [] => []
  | k, c :: t =>
    if k = 2 && !t.isEmpty then c :: ',' :: groupRevAux 0 t
    else c :: groupRevAux (k + 1) t

/-- Python format n with comma thousands grouping. -/
def groupNat (n : Nat) : String :=
  String.mk ((groupRevAux 0 (natDigits n).reverse).reverse)

/-- Renders a nonnegative rational with d decimal places; the Bool selects
comma grouping of the integer part. Ties round half-up; Python formats the
underlying binary float with round-half-even, which agrees on every value
occurring in this development. -/
def renderFixedParts (grouped : Bool) (q : ℚ) (d : Nat) : String :=
  let n : Nat := (Rat.floor (q * (10 : ℚ) ^ d + 1 / 2)).toNat
  let ip : Nat := n / 10 ^ d
  let fp : Nat := n % 10 ^ d
  let ipStr : String := if grouped then groupNat ip else natStr ip
  if d = 0 then ipStr
  else ipStr ++ "." ++
    String.mk (List.replicate (d - (natDigits fp).length) '0' ++ natDigits fp)

/-- Python format value with fixed decimals, no grouping. -/
def renderFixed (q : ℚ) (d : Nat) : String :=
  if q < 0 then "-" ++ renderFixedParts false (-q) d else renderFixedParts false q d

/-- Python format value with fixed decimals and comma grouping. -/
def renderFixedGrouped (q : ℚ) (d : Nat) : String :=
  if q < 0 then "-" ++ renderFixedParts true (-q) d else renderFixedParts true q d

/-! ### state.py: enums, chain registry and entity records -/

/-- state.py RiskTolerance. -/
inductive RiskTolerance where
  | CONSERVATIVE
  | MODERATE
  | AGGRESSIVE
deriving DecidableEq

/-- state.py ILRisk. -/
inductive ILRisk where
  | NONE
  | LOW
  | MEDIUM
  | HIGH
deriving DecidableEq

/-- state.py Intent. -/
inductive Intent where
  | YIELD_SEARCH
  | COMPARE_PROTOCOLS
  | ROUTE_ONLY
  | RISK_ANALYSIS
  | GENERAL_QUESTION
deriving DecidableEq

/-- One value of the SUPPORTED_CHAINS mapping in state.py. -/
structure ChainConfig where
  chain_id : Nat
  name : String
  symbol : String
  color : String
  explorer : String
  defillama_slug : String
  lifi_key : String
deriving DecidableEq

/-- state.py SUPPORTED_CHAINS; a Python dict iterates in insertion order,
so the association list keeps the declaration order of the source. -/
def SUPPORTED_CHAINS : List (String × ChainConfig) :=
  [ ("ethereum",
     { chain_id := 1, name := "Ethereum", symbol := "ETH", color := "#627EEA",
       explorer := "https://etherscan.io", defillama_slug := "Ethereum", lifi_key := "ETH" }),
    ("arbitrum",
     { chain_id := 42161, name := "Arbitrum One", symbol := "ETH", color := "#28A0F0",
       explorer := "https://arbiscan.io", defillama_slug := "Arbitrum", lifi_key := "ARB" }),
    ("optimism",
     { chain_id := 10, name := "Optimism", symbol := "ETH", color := "#FF0420",
       explorer := "https://optimistic.etherscan.io", defillama_slug := "Optimism", lifi_key := "OPT" }),
    ("polygon",
     { chain_id := 137, name := "Polygon", symbol := "MATIC", color := "#8247E5",
       explorer := "https://polygonscan.com", defillama_slug := "Polygon", lifi_key := "POL" }),
    ("base",
     { chain_id := 8453, name := "Base", symbol := "ETH", color := "#0052FF",
       explorer := "https://basescan.org", defillama_slug := "Base", lifi_key := "BAS" }),
    ("avalanche",
     { chain_id := 43114, name := "Avalanche", symbol := "AVAX", color := "#E84142",
       explorer := "https://snowtrace.io", defillama_slug := "Avalanche", lifi_key := "AVA" }),
    ("bsc",
     { chain_id := 56, name := "BNB Chain", symbol := "BNB", color := "#F0B90B",
       explorer := "https://bscscan.com", defillama_slug := "BSC", lifi_key := "BSC" }) ]

/-- The keys of SUPPORTED_CHAINS in declaration order. -/
def supportedChainKeys : List String := SUPPORTED_CHAINS.map (fun p => p.fst)

/-- state.py YieldOpportunity. -/
structure YieldOpportunity where
  pool_id : String
  protocol : String
  protocol_slug : String
  chain : String
  pool_name : String
  symbol : String
  underlying_tokens : List String
  reward_tokens : List String
  apy : ℚ
  apy_base : ℚ
  apy_reward : ℚ
  apy_7d_avg : Option ℚ
  apy_30d_avg : Option ℚ
  tvl_usd : ℚ
  risk_score : ℚ
  il_risk : ILRisk
  audited : Bool
  audit_links : List String
  protocol_age_days : Nat
  pool_url : Option String
  last_updated : Option String
deriving DecidableEq

/-- state.py BridgeRoute. The tx_data payload is an arbitrary mapping the
core never inspects; it is modelled opaquely. -/
structure BridgeRoute where
  from_chain : String
  from_chain_id : Nat
  to_chain : String
  to_chain_id : Nat
  token : String
  token_address : String
  amount : ℚ
  bridge_name : String
  estimated_time_seconds : Nat
  gas_cost_usd : ℚ
  bridge_fee_usd : ℚ
  total_cost_usd : ℚ
  estimated_output : ℚ
  slippage_percent : ℚ
  tx_data : Option (List (String × String))
deriving DecidableEq

/-- state.py GasEstimate. -/
structure GasEstimate where
  chain : String
  chain_id : Nat
  gas_price_slow : ℚ
  gas_price_standard : ℚ
  gas_price_fast : ℚ
  swap_cost_usd : ℚ
  deposit_cost_usd : ℚ
  base_fee : Option ℚ
  priority_fee : Option ℚ
  last_updated : String
deriving DecidableEq

/-- state.py Recommendation. -/
structure Recommendation where
  rank : Nat
  opportunity : YieldOpportunity
  input_amount : ℚ
  input_token : String
  earnings_30d : ℚ
  earnings_1y : ℚ
  requires_bridge : Bool
  bridge_route : Option BridgeRoute
  net_apy : ℚ
  total_entry_cost_usd : ℚ
  why_recommended : String
  warnings : List String
  execution_steps : List String
deriving DecidableEq

/-- One element of a list-of-parts message content handled by
input_parser.py lines 91-97: a plain string, a mapping carrying optional
string values under the type and text keys, or any other shape (which the
normaliser skips). -/
inductive MsgPart where
  | pstr (s : String)
  | pdict (ty : Option String) (tx : Option String)
  | pother
deriving DecidableEq

/-- The content of a conversation-history entry: either a plain string or a
list of parts (input_parser.py lines 85-97). -/
inductive Content where
  | str (s : String)
  | list (parts : List MsgPart)
deriving DecidableEq

/-- One conversation-history entry as inspected by input_parser.py lines
84-88: an object exposing a content attribute, a mapping that may carry a
"content" key, or any other shape (neither attribute nor mapping). -/
inductive Message where
  | withContent (content : Content)
  | dictMsg (content : Option Content)
  | plain
deriving DecidableEq

/-- state.py AgentState. -/
structure AgentState where
  messages : List Message := []
  user_query : String := ""
  amount : Option ℚ := none
  token : Option String := none
  current_chain : Option String := none
  risk_tolerance : RiskTolerance := RiskTolerance.MODERATE
  preferred_chains : List String := []
  excluded_protocols : List String := []
  min_tvl : ℚ := 100000
  intent : Option Intent := none
  target_chains : List String := []
  processing_step : String := "initialized"
  yield_opportunities : List YieldOpportunity := []
  bridge_routes : List BridgeRoute := []
  gas_estimates : List GasEstimate := []
  recommendations : List Recommendation := []
  reasoning : String := ""
  execution_steps : List String := []
  warnings : List String := []
  formatted_response : String := ""
  error : Option String := none
  error_details : Option (List (String × String)) := none
deriving DecidableEq

/-! ### state.py: the two merge functions (State Aggregator) -/

/-- The loop of merge_opportunities (state.py lines 250-253): seen is the
set of already-recorded pool ids, modelled by a list queried only through
membership. -/
def mergeLoop (seen : List String) : List YieldOpportunity → List YieldOpportunity
  | [] => []
  | o :: t =>
    if o.pool_id ∈ seen then mergeLoop seen t
    else o :: mergeLoop (o.pool_id :: seen) t

/-- state.py merge_opportunities: merged starts as a copy of existing and
the loop appends the new items whose pool_id was not seen. -/
def merge_opportunities (existing new : List YieldOpportunity) : List YieldOpportunity :=
  existing ++ mergeLoop (existing.map (fun o => o.pool_id)) new

/-- state.py merge_warnings builds dict.fromkeys(existing + new) and takes
its keys: inserting a key that is already present leaves the dict
unchanged, a fresh key is appended at the end. -/
def insertKey (acc : List String) (x : String) : List String :=
  if x ∈ acc then acc else acc ++ [x]

/-- The key list of Python dict.fromkeys(l). -/
def pyFromKeys (l : List String) : List String := l.foldl insertKey []

/-- state.py merge_warnings. -/
def merge_warnings (existing new : List String) : List String :=
  pyFromKeys (existing ++ new)

/-- The specification's reading of warning de-duplication: keep each string
at its earliest position, dropping every later duplicate. -/
def dedupFirst : List String → List String
  | [] => []
  | x :: t => x :: dedupFirst (t.filter (fun y => y ≠ x))
termination_by l => l.length
decreasing_by
  simp only [List.length_cons, Nat.lt_succ_iff]
  exact List.length_filter_le _ _

/-- The specification's reading of opportunity merge: keep the new items,
in order, whose pool identifier occurs neither among the banned (existing)
ids nor earlier in the new collection, so the first-seen instance per
identifier wins. -/
def newUniques (banned : List String) : List YieldOpportunity → List YieldOpportunity
  | [] => []
  | o :: t =>
    if o.pool_id ∈ banned then newUniques banned t
    else o :: newUniques banned (t.filter (fun p => p.pool_id ≠ o.pool_id))
termination_by l => l.length
decreasing_by
  all_goals simp only [List.length_cons, Nat.lt_succ_iff]
  · exact Nat.le_refl _
  · exact List.length_filter_le _ _

/-! ### Lemmas about the merge functions -/

/-- mergeLoop only queries the seen collection through membership, so any
two membership-equivalent seen lists give the same result. -/
theorem mergeLoop_congr (l : List YieldOpportunity) :
    ∀ s₁ s₂ : List String, (∀ x, x ∈ s₁ ↔ x ∈ s₂) →
    mergeLoop s₁ l = mergeLoop s₂ l := by
  induction l with
  | nil => intro _ _ _; rfl
  | cons o t ih =>
    intro s₁ s₂ h
    simp only [mergeLoop]
    by_cases hm : o.pool_id ∈ s₁
    · rw [if_pos hm, if_pos ((h _).mp hm), ih _ _ h]
    · rw [if_neg hm, if_neg (fun hc => hm ((h _).mpr hc)),
        ih (o.pool_id :: s₁) (o.pool_id :: s₂) (by intro x; simp [h x])]

/-- Recording an id in the seen set is the same as filtering every later
occurrence of that id out of the remaining input. -/
theorem mergeLoop_filter (x : String) (l : List YieldOpportunity) :
    ∀ s : List String,
    mergeLoop (x :: s) l = mergeLoop s (l.filter (fun p => p.pool_id ≠ x)) := by
  induction l with
  | nil => intro s; rfl
  | cons o t ih =>
    intro s
    by_cases hx : o.pool_id = x
    · rw [List.filter_cons_of_neg (by simp [hx])]
      simp only [mergeLoop]
      rw [if_pos (by simp [hx]), ih s]
    · rw [List.filter_cons_of_pos (by simp [hx])]
      by_cases hs : o.pool_id ∈ s
      · simp only [mergeLoop]
        rw [if_pos (by simp [hs]), if_pos hs, ih s]
      · simp only [mergeLoop]
        rw [if_neg (by simp [hx, hs]), if_neg hs,
          mergeLoop_congr t (o.pool_id :: x :: s) (x :: o.pool_id :: s)
            (by intro y; constructor <;> (intro hy; simp at hy ⊢; tauto)),
          ih (o.pool_id :: s)]

/-- The imperative seen-set loop computes exactly the specification's
filter-based de-duplication of the new collection. -/
theorem newUniques_eq_mergeLoop :
    ∀ (n : Nat) (l : List YieldOpportunity), l.length ≤ n →
    ∀ banned, newUniques banned l = mergeLoop banned l := by
  intro n
  induction n with
  | zero =>
    intro l hl banned
    cases l with
    | nil => simp [newUniques, mergeLoop]
    | cons o t => simp at hl
  | succ n ih =>
    intro l hl banned
    cases l with
    | nil => simp [newUniques, mergeLoop]
    | cons o t =>
      simp only [newUniques, mergeLoop]
      by_cases hb : o.pool_id ∈ banned
      · rw [if_pos hb, if_pos hb,
          ih t (by simpa using Nat.le_of_succ_le_succ hl) banned]
      · rw [if_neg hb, if_neg hb,
          ih (t.filter (fun p => p.pool_id ≠ o.pool_id))
            (le_trans (List.length_filter_le _ _)
              (by simpa using Nat.le_of_succ_le_succ hl)) banned,
          ← mergeLoop_filter]

/-- If every id of the input is already seen, the loop appends nothing. -/
theorem mergeLoop_eq_nil (l : List YieldOpportunity) :
    ∀ seen, (∀ o ∈ l, o.pool_id ∈ seen) → mergeLoop seen l = [] := by
  induction l with
  | nil => intro _ _; rfl
  | cons o t ih =>
    intro seen h
    simp only [mergeLoop, if_pos (h o (by simp))]
    exact ih seen (fun p hp => h p (by simp [hp]))

/-- The ids appended by the loop are duplicate-free and disjoint from the
seen set. -/
theorem mergeLoop_nodup (l : List YieldOpportunity) :
    ∀ seen, ((mergeLoop seen l).map (fun o => o.pool_id)).Nodup ∧
      ∀ x ∈ (mergeLoop seen l).map (fun o => o.pool_id), x ∉ seen := by
  induction l with
  | nil => intro seen; exact ⟨by simp [mergeLoop], by simp [mergeLoop]⟩
  | cons o t ih =>
    intro seen
    by_cases hm : o.pool_id ∈ seen
    · simpa only [mergeLoop, if_pos hm] using ih seen
    · have h := ih (o.pool_id :: seen)
      simp only [mergeLoop, if_neg hm, List.map_cons, List.nodup_cons]
      refine ⟨⟨fun hc => ?_, h.1⟩, ?_⟩
      · exact (h.2 _ hc) (by simp)
      · intro x hx
        rcases List.mem_cons.mp hx with hx | hx
        · simpa [hx] using hm
        · intro hxs
          exact (h.2 x hx) (by simp [hxs])

/-- Claim C4: opportunity merge returns the existing collection unchanged
followed by exactly the new items whose pool identifier occurs neither in
the existing collection nor earlier in the new one (first-seen wins), and
merging a collection with itself returns it unchanged (idempotence). -/
theorem merge_opportunities_spec :
    ∀ existing new : List YieldOpportunity,
      merge_opportunities existing new =
        existing ++ newUniques (existing.map (fun o => o.pool_id)) new ∧
      merge_opportunities existing existing = existing := by
  intro existing new
  constructor
  · rw [merge_opportunities,
      newUniques_eq_mergeLoop new.length new (Nat.le_refl _)]
  · rw [merge_opportunities,
      mergeLoop_eq_nil existing _ (fun o ho => List.mem_map_of_mem _ ho),
      List.append_nil]

/-- Claim C10: when the existing collection has pairwise-distinct pool
identifiers, the merged collection does too (even when the new collection
repeats identifiers); and the merge always keeps the existing collection
verbatim as a prefix, so duplicates already present are preserved. -/
theorem merge_opportunities_nodup :
    ∀ existing new : List YieldOpportunity,
      ((existing.map (fun o => o.pool_id)).Nodup →
        ((merge_opportunities existing new).map (fun o => o.pool_id)).Nodup) ∧
      (merge_opportunities existing new).take existing.length = existing := by
  intro existing new
  constructor
  · intro he
    have h := mergeLoop_nodup new (existing.map (fun o => o.pool_id))
    rw [merge_opportunities, List.map_append]
    exact (List.nodup_append).mpr ⟨he, h.1, fun x hx hx2 => (h.2 x hx2) hx⟩
  · rw [merge_opportunities, List.take_left]

/-- A concrete opportunity used by witnesses. -/
def sampleOpp (id : String) (apy : ℚ) : YieldOpportunity :=
  { pool_id := id, protocol := "Aave", protocol_slug := "aave",
    chain := "ethereum", pool_name := "USDC Pool", symbol := "USDC",
    underlying_tokens := [], reward_tokens := [], apy := apy, apy_base := 0,
    apy_reward := 0, apy_7d_avg := none, apy_30d_avg := none,
    tvl_usd := 1000000, risk_score := 2, il_risk := ILRisk.NONE,
    audited := true, audit_links := [], protocol_age_days := 100,
    pool_url := none, last_updated := none }

/-- Witness for claim C10 at a concrete input: the existing ids are
distinct and the merged ids (the new collection repeating id "c" and also
id "a" from existing) stay distinct. -/
theorem merge_opportunities_nodup_witness :
    ((merge_opportunities [sampleOpp "a" 1, sampleOpp "b" 2]
      [sampleOpp "a" 3, sampleOpp "c" 4, sampleOpp "c" 5]).map
        (fun o => o.pool_id)).Nodup :=
  (merge_opportunities_nodup [sampleOpp "a" 1, sampleOpp "b" 2]
    [sampleOpp "a" 3, sampleOpp "c" 4, sampleOpp "c" 5]).1 (by decide)

/-- Unfolding lemma for the cons case of dedupFirst. -/
theorem dedupFirst_cons (x : String) (l : List String) :
    dedupFirst (x :: l) = x :: dedupFirst (l.filter (fun y => y ≠ x)) := by
  simp [dedupFirst]

/-- Folding the dict.fromkeys insertion over l extends acc by the
first-occurrence de-duplication of the elements of l not already in acc. -/
theorem foldl_insertKey (l : List String) :
    ∀ acc, l.foldl insertKey acc =
      acc ++ dedupFirst (l.filter (fun x => x ∉ acc)) := by
  induction l with
  | nil => intro acc; simp [dedupFirst]
  | cons x t ih =>
    intro acc
    by_cases hx : x ∈ acc
    · rw [List.foldl_cons, insertKey, if_pos hx, ih acc,
        List.filter_cons_of_neg (by simp [hx])]
    · rw [List.foldl_cons, insertKey, if_neg hx, ih (acc ++ [x]),
        List.filter_cons_of_pos (by simp [hx]), dedupFirst_cons]
      have hf : t.filter (fun y => y ∉ acc ++ [x]) =
          (t.filter (fun y => y ∉ acc)).filter (fun y => y ≠ x) := by
        rw [List.filter_filter]
        apply List.filter_congr
        intro y _
        by_cases hy : y = x <;> by_cases hz : y ∈ acc <;> simp [hy, hz]
      rw [hf, List.append_assoc, List.singleton_append]

/-- Claim C5: warning merge equals concatenation followed by de-duplication
keeping the earliest occurrence of each string, and in particular merging
["a","b"] with ["b","c"] yields ["a","b","c"]. -/
theorem merge_warnings_spec :
    ∀ existing new : List String,
      merge_warnings existing new = dedupFirst (existing ++ new) ∧
      merge_warnings ["a", "b"] ["b", "c"] = ["a", "b", "c"] := by
  intro existing new
  constructor
  · rw [merge_warnings, pyFromKeys, foldl_insertKey, List.nil_append]
    congr 1
    apply List.filter_eq_self.mpr
    intro a _
    simp
  · decide

/-! ### input_parser.py: vocabularies and helpers -/

/-- input_parser.py safe_lower restricted to strings: str(text).lower() if
text else "" agrees with plain lowercasing on every string (the guard only
maps "" to ""). The defensive list branch of the source handles payloads
that the normaliser has already flattened before any parse function runs,
so it is not reachable through the embedded call graph. -/
def safe_lower (text : String) : String := lowerStr text

/-- input_parser.py KNOWN_TOKENS, listed in the declaration order of the
source literal. The source declares a Python set: membership tests are
order-independent, but iterating the set enumerates some runtime-dependent
permutation of these elements, not necessarily this order. -/
def KNOWN_TOKENS : List String :=
  ["USDC", "USDT", "DAI", "FRAX", "ETH", "WETH", "BTC", "WBTC", "MATIC",
   "BNB", "AVAX", "ARB", "OP"]

/-- input_parser.py CHAIN_ALIASES; Python dicts iterate in insertion
order, so the association list keeps the declaration order. -/
def CHAIN_ALIASES : List (String × String) :=
  [("eth", "ethereum"), ("arb", "arbitrum"), ("op", "optimism"),
   ("matic", "polygon"), ("bnb", "bsc"), ("avax", "avalanche")]

def natOfDigits (ds : List Char) : Nat :=
  ds.foldl (fun a c => a * 10 + (c.toNat - 48)) 0

/-- The word-boundary test after the matched k: satisfied at end of text or
before a non-word character. -/
def boundaryOk : List Char → Bool
  | [] => true
  | d :: _ => !isWordC d

/-- One pass of Python re.sub on the pattern digits-then-k-then-boundary:
at a digit run, when the run is immediately followed by the letter k and
the character after the k (if any) is not a word character, the whole
digits-plus-k match is replaced by the digits times 1000; otherwise the
run is copied verbatim. No suffix of a failing run can match (the
character after the run is unchanged), so scanning resumes after the run,
exactly like the regex engine. Fuel is the input length; every step
consumes at least one character. -/
def subKAux : Nat → List Char → List Char
  | 0, cs => cs
  | _ + 1, [] => []
  | fuel + 1, c :: t =>
    if isDigitC c then
      let ds := (c :: t).takeWhile isDigitC
      match (c :: t).dropWhile isDigitC with
      | k :: r3 =>
        if k = 'k' then
          if boundaryOk r3 then
            natDigits (natOfDigits ds * 1000) ++ subKAux fuel r3
          else ds ++ subKAux fuel (k :: r3)
        else ds ++ subKAux fuel (k :: r3)
      | [] => ds
    else c :: subKAux fuel t

/-- input_parser.py line 36: rewrite every digits-k-boundary occurrence to
the digits multiplied by 1000. -/
def pySubK (cs : List Char) : List Char := subKAux cs.length cs

/-- The comma-groups part of the amount regex: consumes as many
comma-plus-three-digits groups as possible, returning the collected digits
(commas dropped, matching the replace(",","") of the source) and the rest. -/
def commaGroups : Nat → List Char → (List Char × List Char)
  | 0, cs => ([], cs)
  | fuel + 1, cs =>
    match cs with
    | ',' :: a :: b :: c :: rest =>
      if isDigitC a && isDigitC b && isDigitC c then
        let (m, r) := commaGroups fuel rest
        (a :: b :: c :: m, r)
      else ([], cs)
    | _ => ([], cs)

/-- The optional fractional part of the amount regex: a dot followed by at
least one digit, otherwise nothing is consumed. -/
def fracPart (cs : List Char) : (List Char × List Char) :=
  match cs with
  | '.' :: r =>
    let fd := r.takeWhile isDigitC
    if fd.isEmpty then ([], cs) else (fd, r.dropWhile isDigitC)
  | _ => ([], cs)

/-- The amount regex matched at a position whose first character is a
digit: greedy digit run, optional comma groups, optional fraction, then
any whitespace and an optional greedy run of 2 to 10 letters as the
adjacent-token capture. The amount is float(group1.replace(",","")): the
value of the decimal numeral whose integer digits are the run plus the
comma groups and whose fractional digits are the fraction, built here as
the exact rational intdigits-fracdigits over 10 to the fraction length. -/
def matchNumberAt (cs : List Char) : ℚ × Option String :=
  let ds := cs.takeWhile isDigitC
  let r1 := cs.dropWhile isDigitC
  let (groups, r2) := commaGroups r1.length r1
  let (fd, r3) := fracPart r2
  let r4 := r3.dropWhile isSpaceC
  let letters := r4.takeWhile isAlphaC
  (mkRat (natOfDigits (ds ++ groups ++ fd)) (10 ^ fd.length),
   if letters.length ≥ 2 then some (String.mk (letters.take 10)) else none)

/-- re.search for the amount pattern: the leftmost match starts at the
first digit of the text (the optional dollar prefix moves the match start
one character left when present but captures nothing, so the groups are
unaffected and the scanner can start at the first digit). Returns none
exactly when the text has no digit. -/
def searchNumberAux : Nat → List Char → Option (ℚ × Option String)
  | 0, _ => none
  | _ + 1, [] => none
  | fuel + 1, c :: t =>
    if isDigitC c then some (matchNumberAt (c :: t)) else searchNumberAux fuel t

def searchNumber (cs : List Char) : Option (ℚ × Option String) :=
  searchNumberAux cs.length cs

/-- input_parser.py lines 42-44: the adjacent capture becomes the token
only when its uppercasing is in the known vocabulary (a membership test on
the set, which is order-independent). -/
def validTok : Option String → Option String
  | some t => if upperStr t ∈ KNOWN_TOKENS then some (upperStr t) else none
  | none => none

/-- input_parser.py lines 46-49: the containment fallback scan, iterating
the KNOWN_TOKENS set in the given runtime order; the first token whose
lowercasing occurs in the cleaned text wins. -/
def fallbackToken (order : List String) (query_clean : String) : Option String :=
  order.find? (fun t => containsStr query_clean (lowerStr t))

/-- input_parser.py parse_amount_and_token, with the set-iteration order of
the fallback scan as an explicit parameter. -/
def parse_amount_and_tokenWith (tokenOrder : List String) (query : String) :
    Option ℚ × Option String :=
  let query_clean := safe_lower query
  match searchNumber (pySubK query_clean.data) with
  | none => (none, fallbackToken tokenOrder query_clean)
  | some (a, g2) =>
    match validTok g2 with
    | some tok => (some a, some tok)
    | none => (some a, fallbackToken tokenOrder query_clean)

/-- parse_amount_and_token at the declaration order of the vocabulary (the
theorems quantify over the order wherever it can matter). -/
def parse_amount_and_token (query : String) : Option ℚ × Option String :=
  parse_amount_and_tokenWith KNOWN_TOKENS query

/-- The body of the alias loop of input_parser.py lines 57-58. -/
def aliasStep (query_lower : String) (acc : List String) (p : String × String) :
    List String :=
  if containsStr query_lower p.fst ∧ p.snd ∉ acc then acc ++ [p.snd] else acc

/-- input_parser.py parse_chains: containment scan over the supported
chain keys in declaration order, then the alias scan appending resolved
keys not already present; current is never assigned and stays None. -/
def parse_chains (query : String) : List String × Option String :=
  let query_lower := safe_lower query
  let preferred := supportedChainKeys.filter (fun key => containsStr query_lower key)
  (CHAIN_ALIASES.foldl (aliasStep query_lower) preferred, none)

/-- input_parser.py parse_risk_tolerance. -/
def parse_risk_tolerance (query : String) : RiskTolerance :=
  let query_lower := safe_lower query
  if ["safe", "low risk", "conservative"].any (fun k => containsStr query_lower k) then
    RiskTolerance.CONSERVATIVE
  else if ["aggressive", "high risk", "degen"].any (fun k => containsStr query_lower k) then
    RiskTolerance.AGGRESSIVE
  else RiskTolerance.MODERATE

/-- input_parser.py parse_intent (the rule tier). -/
def parse_intent (query : String) : Intent :=
  let query_lower := safe_lower query
  if ["compare", "vs"].any (fun k => containsStr query_lower k) then
    Intent.COMPARE_PROTOCOLS
  else if ["bridge", "move"].any (fun k => containsStr query_lower k) then
    Intent.ROUTE_ONLY
  else if ["risk", "audit"].any (fun k => containsStr query_lower k) then
    Intent.RISK_ANALYSIS
  else Intent.YIELD_SEARCH

/-- input_parser.py lines 102-111: the rule-tier intent possibly overridden
from the Groq response. llmOutcome none models the try block raising
anywhere (client construction, network, auth, malformed response); some c
models a successful call whose response content is c. The except-pass
swallows every failure, leaving the rule-tier intent. -/
def classifyIntent (query : String) (llmOutcome : Option String) : Intent :=
  let intent := parse_intent query
  match llmOutcome with
  | none => intent
  | some content =>
    let intent_str := safe_lower content
    if containsStr intent_str "compare" then Intent.COMPARE_PROTOCOLS
    else if containsStr intent_str "route" then Intent.ROUTE_ONLY
    else if containsStr intent_str "risk" then Intent.RISK_ANALYSIS
    else intent

/-! ### input_parser.py: query normalisation and the node function -/

/-- input_parser.py lines 94-96: the text contributed by one part of a
list-shaped content; none when the part is skipped. -/
def partText : MsgPart → Option String
  | .pstr s => some s
  | .pdict ty tx => if ty = some "text" then some (tx.getD "") else none
  | .pother => none

/-- input_parser.py lines 84-88: the content taken from the last
conversation-history entry. A mapping without a "content" key yields the
empty string via the get default; an entry of any other shape leaves the
query unchanged (and the query is empty whenever this code runs). -/
def contentOfLast (uq : String) : Message → Content
  | .withContent c => c
  | .dictMsg (some c) => c
  | .dictMsg none => Content.str ""
  | .plain => Content.str uq

/-- input_parser.py lines 91-97: a list-shaped content is flattened by
keeping string parts verbatim, text-typed mapping parts through their text
field, skipping everything else, and joining with single spaces. -/
def flattenContent : Content → String
  | .str s => s
  | .list parts => pyJoin " " (parts.filterMap partText)

/-- input_parser.py lines 80-97: the full query normalisation. -/
def normalizeQuery (uq : String) (msgs : List Message) : String :=
  flattenContent
    (if uq = "" ∧ msgs ≠ [] then
      match msgs.getLast? with
      | some m => contentOfLast uq m
      | none => Content.str uq
    else Content.str uq)

/-- The fields of the success dict returned by parse_input. -/
structure ParsedFields where
  user_query : String
  amount : Option ℚ
  token : String
  preferred_chains : List String
  current_chain : Option String
  risk_tolerance : RiskTolerance
  intent : Intent
  excluded_protocols : List String
  target_chains : List String
deriving DecidableEq

/-- The two possible state updates returned by parse_input: the
empty-input error dict of line 100, or the parsed dict of lines 119-130. -/
inductive ParseResult where
  | failure (processing_step : String) (error : String)
  | success (processing_step : String) (fields : ParsedFields)
deriving DecidableEq

/-- Python's x or d for strings: d when x is empty (falsy). -/
def pyOrStr (s d : String) : String := if s = "" then d else s

/-- Python's x or d for an optional string: d when x is absent or empty. -/
def pyOrOptStr (s : Option String) (d : String) : String :=
  match s with
  | some v => pyOrStr v d
  | none => d

/-- The parsed dict of input_parser.py lines 119-130, built from the
normalised query. -/
def parsedFieldsOf (query : String) (tokenOrder : List String)
    (llmOutcome : Option String) : ParsedFields :=
  let at_ := parse_amount_and_tokenWith tokenOrder query
  let pc := parse_chains query
  { user_query := query
    amount := at_.fst
    token := pyOrOptStr at_.snd "USDC"
    preferred_chains := pc.fst
    current_chain := pc.snd
    risk_tolerance := parse_risk_tolerance query
    intent := classifyIntent query llmOutcome
    excluded_protocols := []
    target_chains := if pc.fst = [] then supportedChainKeys else pc.fst }

/-- input_parser.py parse_input. tokenOrder is the runtime iteration order
of the KNOWN_TOKENS set, llmOutcome the outcome of the Groq call. -/
def parse_input (st : AgentState) (tokenOrder : List String)
    (llmOutcome : Option String) : ParseResult :=
  if normalizeQuery st.user_query st.messages = "" then
    ParseResult.failure "input_empty_error" "No query provided"
  else
    ParseResult.success "input_parsed"
      (parsedFieldsOf (normalizeQuery st.user_query st.messages) tokenOrder llmOutcome)

/-- The specification's reachability predicate: some non-empty string is
reachable by the normalisation rules — the explicit query field is
non-empty, or the last conversation-history entry's content is a non-empty
string, or that content is a list containing a non-empty string part or a
text-typed mapping part with non-empty text. -/
def partUsable : MsgPart → Bool
  | .pstr s => decide (s ≠ "")
  | .pdict ty tx => decide (ty = some "text") && decide (tx.getD "" ≠ "")
  | .pother => false

def contentUsable : Content → Bool
  | .str s => decide (s ≠ "")
  | .list ps => ps.any partUsable

def hasUsableText (uq : String) (msgs : List Message) : Bool :=
  if uq ≠ "" then true
  else
    match msgs.getLast? with
    | none => false
    | some (.withContent c) => contentUsable c
    | some (.dictMsg (some c)) => contentUsable c
    | some (.dictMsg none) => false
    | some .plain => false

/-! ### Lemmas about strings and the query normalisation -/

theorem str_data_append (a b : String) : (a ++ b).data = a.data ++ b.data := by
  cases a
  cases b
  rfl

/-- Joining with single spaces yields a non-empty string whenever some
fragment is non-empty. -/
theorem pyJoin_space_ne_empty :
    ∀ xs : List String, (∃ x ∈ xs, x ≠ "") → pyJoin " " xs ≠ "" := by
  intro xs h
  match xs with
  | [] => simp at h
  | [x] =>
    obtain ⟨y, hy, hne⟩ := h
    simp only [List.mem_singleton] at hy
    subst hy
    simpa [pyJoin] using hne
  | x :: y :: t =>
    simp only [pyJoin]
    intro he
    have hd := congrArg String.data he
    rw [str_data_append, str_data_append] at hd
    have hsp : (" " : String).data = [' '] := rfl
    rw [hsp] at hd
    simp at hd

/-- A usable content flattens to a non-empty string. -/
theorem flatten_ne_of_usable (c : Content) :
    contentUsable c = true → flattenContent c ≠ "" := by
  cases c with
  | str s =>
    intro h
    simp only [contentUsable, decide_eq_true_eq] at h
    simpa [flattenContent] using h
  | list ps =>
    intro h
    simp only [contentUsable, List.any_eq_true] at h
    obtain ⟨p, hp, hu⟩ := h
    apply pyJoin_space_ne_empty
    cases p with
    | pstr s =>
      refine ⟨s, List.mem_filterMap.mpr ⟨MsgPart.pstr s, hp, rfl⟩, ?_⟩
      simpa [partUsable] using hu
    | pdict ty tx =>
      simp only [partUsable, Bool.and_eq_true, decide_eq_true_eq] at hu
      exact ⟨tx.getD "",
        List.mem_filterMap.mpr ⟨MsgPart.pdict ty tx, hp, by simp [partText, hu.1]⟩,
        hu.2⟩
    | pother => simp [partUsable] at hu

/-- When the specification's reachability predicate holds, the source
normalisation produces a non-empty string. -/
theorem normalize_ne_empty_of_usable (uq : String) (msgs : List Message) :
    hasUsableText uq msgs = true → normalizeQuery uq msgs ≠ "" := by
  intro h
  by_cases hq : uq = ""
  · subst hq
    rw [hasUsableText, if_neg (by simp)] at h
    cases hL : msgs.getLast? with
    | none => rw [hL] at h; simp at h
    | some m =>
      have hmsgs : msgs ≠ [] := by
        intro hnil
        rw [hnil] at hL
        simp at hL
      rw [hL] at h
      rw [normalizeQuery,
        if_pos (show ("" : String) = "" ∧ msgs ≠ [] from ⟨rfl, hmsgs⟩), hL]
      cases m with
      | withContent c => exact flatten_ne_of_usable c (by simpa using h)
      | dictMsg oc =>
        cases oc with
        | some c => exact flatten_ne_of_usable c (by simpa using h)
        | none => simp at h
      | plain => simp at h
  · rw [normalizeQuery, if_neg (fun hc => hq hc.1)]
    simpa [flattenContent] using hq

/-- Claim C1: the input parser returns the empty-input error update (with
no extraction or classification run) exactly when its normalisation rules
produce the empty string; in particular, whenever some non-empty string is
reachable by those rules, it returns the parsed update instead. -/
theorem parse_input_empty_spec :
    ∀ (st : AgentState) (tokenOrder : List String) (llmOutcome : Option String),
      (parse_input st tokenOrder llmOutcome =
          ParseResult.failure "input_empty_error" "No query provided" ↔
        normalizeQuery st.user_query st.messages = "") ∧
      (hasUsableText st.user_query st.messages = true →
        ∃ f, parse_input st tokenOrder llmOutcome =
          ParseResult.success "input_parsed" f) := by
  intro st order llm
  constructor
  · by_cases hq : normalizeQuery st.user_query st.messages = ""
    · exact ⟨fun _ => hq, fun _ => by simp only [parse_input]; rw [if_pos hq]⟩
    · refine ⟨fun h => ?_, fun h => absurd h hq⟩
      exfalso
      simp only [parse_input] at h
      rw [if_neg hq] at h
      exact ParseResult.noConfusion h
  · intro h
    have hne := normalize_ne_empty_of_usable _ _ h
    exact ⟨parsedFieldsOf (normalizeQuery st.user_query st.messages) order llm,
      by rw [parse_input, if_neg hne]⟩

/-- Witness for claim C1 at a concrete payload: an empty query field whose
history carries a text part, so parsing succeeds. -/
theorem parse_input_empty_spec_witness :
    ∃ f, parse_input
        { user_query := "",
          messages := [Message.dictMsg (some (Content.list
            [MsgPart.pother, MsgPart.pdict (some "text") (some "find yield")]))] }
        KNOWN_TOKENS none = ParseResult.success "input_parsed" f :=
  (parse_input_empty_spec
    { user_query := "",
      messages := [Message.dictMsg (some (Content.list
        [MsgPart.pother, MsgPart.pdict (some "text") (some "find yield")]))] }
    KNOWN_TOKENS none).2 (by decide)

/-- Claim C3: the intent classifier is a total function of the query and
the outcome of the external call; a raising call leaves the rule-tier
intent unchanged, and a successful call re-derives the intent from keyword
containment in the answer in compare/route/risk priority order (the
rule-tier result standing when no keyword occurs in the answer). -/
theorem classifyIntent_spec :
    ∀ (query answer : String),
      classifyIntent query none = parse_intent query ∧
      (containsStr (safe_lower answer) "compare" = true →
        classifyIntent query (some answer) = Intent.COMPARE_PROTOCOLS) ∧
      (containsStr (safe_lower answer) "compare" = false →
        containsStr (safe_lower answer) "route" = true →
        classifyIntent query (some answer) = Intent.ROUTE_ONLY) ∧
      (containsStr (safe_lower answer) "compare" = false →
        containsStr (safe_lower answer) "route" = false →
        containsStr (safe_lower answer) "risk" = true →
        classifyIntent query (some answer) = Intent.RISK_ANALYSIS) ∧
      (containsStr (safe_lower answer) "compare" = false →
        containsStr (safe_lower answer) "route" = false →
        containsStr (safe_lower answer) "risk" = false →
        classifyIntent query (some answer) = parse_intent query) := by
  intro q a
  refine ⟨rfl, ?_, ?_, ?_, ?_⟩ <;> intros <;> simp [classifyIntent, *]

/-- Witness for claim C3: a query whose rule tier says compare, overridden
to risk analysis by a successful call answering risk. -/
theorem classifyIntent_spec_witness :
    classifyIntent "compare aave vs lido" (some "risk_analysis") = Intent.RISK_ANALYSIS :=
  ((classifyIntent_spec "compare aave vs lido" "risk_analysis").2.2.2.1)
    (by decide) (by decide) (by decide)

/-- Claim C6: the extraction scenario on the sample query, for every
iteration order of the token set (the adjacent capture fires, so the
fallback scan is not consulted). -/
theorem scenario_extract_5k_usdc :
    ∀ tokenOrder : List String,
      parse_amount_and_tokenWith tokenOrder
          "I have 5k USDC on ethereum, looking for safe yield" =
        (some 5000, some "USDC") ∧
      parse_chains "I have 5k USDC on ethereum, looking for safe yield" =
        (["ethereum"], none) ∧
      parse_risk_tolerance "I have 5k USDC on ethereum, looking for safe yield" =
        RiskTolerance.CONSERVATIVE ∧
      parse_intent "I have 5k USDC on ethereum, looking for safe yield" =
        Intent.YIELD_SEARCH := by
  intro order
  refine ⟨?_, by decide, by decide, by decide⟩
  have hs : searchNumber (pySubK (safe_lower
      "I have 5k USDC on ethereum, looking for safe yield").data) =
      some ((5000 : ℚ), some "usdc") := by decide
  have hv : validTok (some "usdc") = some "USDC" := by decide
  simp only [parse_amount_and_tokenWith, hs, hv]

/-! ### Lemmas for the totality of the extractors -/

theorem searchNumberAux_eq_none :
    ∀ (fuel : Nat) (cs : List Char), cs.length ≤ fuel →
      (searchNumberAux fuel cs = none ↔ cs.any isDigitC = false) := by
  intro fuel
  induction fuel with
  | zero =>
    intro cs h
    cases cs with
    | nil => simp [searchNumberAux]
    | cons c t => simp at h
  | succ f ih =>
    intro cs h
    cases cs with
    | nil => simp [searchNumberAux]
    | cons c t =>
      cases hc : isDigitC c with
      | true => simp [searchNumberAux, hc]
      | false =>
        simp only [searchNumberAux, hc, Bool.false_eq_true, if_false,
          List.any_cons, Bool.false_or]
        exact ih t (by simpa using Nat.le_of_succ_le_succ h)

theorem searchNumber_eq_none (cs : List Char) :
    searchNumber cs = none ↔ cs.any isDigitC = false :=
  searchNumberAux_eq_none cs.length cs (Nat.le_refl _)

theorem isDigitC_digitChar : ∀ m, m < 10 → isDigitC (digitChar m) = true := by decide

theorem natDigits_any_digit (m : Nat) : (natDigits m).any isDigitC = true := by
  have hmem : digitChar (m % 10) ∈ natDigits m := by
    rw [natDigits, List.mem_reverse]
    simp [natDigitsRev]
  exact List.any_eq_true.mpr
    ⟨_, hmem, isDigitC_digitChar _ (Nat.mod_lt _ (by norm_num))⟩

theorem any_digit_append_left {l₁ l₂ : List Char} (h : l₁.any isDigitC = true) :
    (l₁ ++ l₂).any isDigitC = true := by
  simp [List.any_append, h]

theorem takeWhile_digit_any {c : Char} (t : List Char) (hc : isDigitC c = true) :
    ((c :: t).takeWhile isDigitC).any isDigitC = true := by
  rw [List.takeWhile_cons, hc]
  simp [hc]

/-- The k-shorthand substitution neither creates digits in a digit-free
text nor erases the last digit of a text that has one. -/
theorem subKAux_any_digit :
    ∀ (fuel : Nat) (cs : List Char),
      (subKAux fuel cs).any isDigitC = cs.any isDigitC := by
  intro fuel
  induction fuel with
  | zero => intro cs; rfl
  | succ f ih =>
    intro cs
    cases cs with
    | nil => rfl
    | cons c t =>
      cases hc : isDigitC c with
      | false => simp [subKAux, hc, ih]
      | true =>
        have hr : (c :: t).any isDigitC = true := by simp [hc]
        rw [hr]
        simp only [subKAux, hc, if_true]
        cases hd : (c :: t).dropWhile isDigitC with
        | nil =>
          simp only [hd]
          exact takeWhile_digit_any t hc
        | cons k r3 =>
          simp only [hd]
          by_cases hk : k = 'k'
          · rw [if_pos hk]
            by_cases hb : boundaryOk r3 = true
            · rw [if_pos hb]
              exact any_digit_append_left (natDigits_any_digit _)
            · rw [if_neg hb]
              exact any_digit_append_left (takeWhile_digit_any t hc)
          · rw [if_neg hk]
            exact any_digit_append_left (takeWhile_digit_any t hc)

theorem pySubK_any_digit (cs : List Char) :
    (pySubK cs).any isDigitC = cs.any isDigitC :=
  subKAux_any_digit cs.length cs

/-- Whether a text contains any decimal digit. -/
def hasDigitStr (s : String) : Bool := s.data.any isDigitC

theorem foldl_aliasStep_id :
    ∀ (l : List (String × String)) (ql : String) (acc : List String),
      (∀ a ∈ l, containsStr ql a.fst = false) →
      l.foldl (aliasStep ql) acc = acc := by
  intro l
  induction l with
  | nil => intro ql acc _; rfl
  | cons p t ih =>
    intro ql acc h
    rw [List.foldl_cons, aliasStep,
      if_neg (fun hc => by simp [h p (by simp)] at hc)]
    exact ih ql acc (fun a ha => h a (by simp [ha]))

/-- Claim C7: the extractors are total pure functions: the amount is
absent exactly when the cleaned text has no digit, a text with no digit
and no known-token occurrence yields no amount and no token, and a text
mentioning no chain key and no alias yields the empty chain list — never a
failure. -/
theorem extractors_total :
    ∀ (s : String) (order : List String),
      ((parse_amount_and_tokenWith order s).fst = none ↔
        hasDigitStr (safe_lower s) = false) ∧
      (hasDigitStr (safe_lower s) = false →
        (∀ t ∈ order, containsStr (safe_lower s) (lowerStr t) = false) →
        parse_amount_and_tokenWith order s = (none, none)) ∧
      ((∀ k ∈ supportedChainKeys, containsStr (safe_lower s) k = false) →
        (∀ a ∈ CHAIN_ALIASES, containsStr (safe_lower s) a.fst = false) →
        parse_chains s = ([], none)) := by
  intro s order
  have hkey : searchNumber (pySubK (safe_lower s).data) = none ↔
      hasDigitStr (safe_lower s) = false := by
    rw [searchNumber_eq_none, pySubK_any_digit]
    exact Iff.rfl
  refine ⟨?_, ?_, ?_⟩
  · cases hsearch : searchNumber (pySubK (safe_lower s).data) with
    | none =>
      simp only [parse_amount_and_tokenWith, hsearch]
      simp [hkey.mp hsearch]
    | some p =>
      obtain ⟨a, g2⟩ := p
      have hd : hasDigitStr (safe_lower s) = true := by
        cases hcs : hasDigitStr (safe_lower s) with
        | true => rfl
        | false => exact absurd (hkey.mpr hcs) (by simp [hsearch])
      simp only [parse_amount_and_tokenWith, hsearch]
      cases validTok g2 with
      | some tok => simp [hd]
      | none => simp [hd]
  · intro hnd hfb
    have hsearch : searchNumber (pySubK (safe_lower s).data) = none := hkey.mpr hnd
    simp only [parse_amount_and_tokenWith, hsearch]
    have hnone : fallbackToken order (safe_lower s) = none := by
      rw [fallbackToken]
      apply List.find?_eq_none.mpr
      intro t ht
      simp [hfb t ht]
    rw [hnone]
  · intro hkeys haliases
    simp only [parse_chains]
    have h1 : supportedChainKeys.filter
        (fun key => containsStr (safe_lower s) key) = [] := by
      apply List.filter_eq_nil_iff.mpr
      intro k hk
      simp [hkeys k hk]
    rw [h1, foldl_aliasStep_id _ _ _ haliases]

/-- Witness for claim C7 at a digit-free, token-free, chain-free text. -/
theorem extractors_total_witness :
    parse_amount_and_tokenWith KNOWN_TOKENS "hello world" = (none, none) ∧
    parse_chains "hello world" = ([], none) :=
  ⟨(extractors_total "hello world" KNOWN_TOKENS).2.1 (by decide) (by decide),
   (extractors_total "hello world" KNOWN_TOKENS).2.2 (by decide) (by decide)⟩

/-- Claim C8: risk-tolerance classification is a total function into the
three-valued enumeration; the conservative bucket is checked first and
wins over the aggressive bucket, and a text matching neither bucket yields
the moderate default. -/
theorem parse_risk_tolerance_spec :
    ∀ query : String,
      (["safe", "low risk", "conservative"].any
          (fun k => containsStr (safe_lower query) k) = true →
        parse_risk_tolerance query = RiskTolerance.CONSERVATIVE) ∧
      (["safe", "low risk", "conservative"].any
          (fun k => containsStr (safe_lower query) k) = false →
        ["aggressive", "high risk", "degen"].any
          (fun k => containsStr (safe_lower query) k) = true →
        parse_risk_tolerance query = RiskTolerance.AGGRESSIVE) ∧
      (["safe", "low risk", "conservative"].any
          (fun k => containsStr (safe_lower query) k) = false →
        ["aggressive", "high risk", "degen"].any
          (fun k => containsStr (safe_lower query) k) = false →
        parse_risk_tolerance query = RiskTolerance.MODERATE) := by
  intro q
  refine ⟨?_, ?_, ?_⟩ <;> intros <;> simp [parse_risk_tolerance, *]

/-- Witness for claim C8: both buckets match and the conservative one
wins. -/
theorem parse_risk_tolerance_spec_witness :
    parse_risk_tolerance "safe but aggressive" = RiskTolerance.CONSERVATIVE :=
  (parse_risk_tolerance_spec "safe but aggressive").1 (by decide)

/-! ### The fallback containment scan and the set-iteration order -/

theorem find_eq_head_filter {α : Type} (p : α → Bool) :
    ∀ l : List α, l.find? p = (l.filter p).head? := by
  intro l
  induction l with
  | nil => rfl
  | cons a t ih =>
    rw [List.find?_cons, List.filter_cons]
    cases p a with
    | true => rfl
    | false => exact ih

theorem perm_eq_of_length_le_one {α : Type} {l₁ l₂ : List α}
    (h : l₁.Perm l₂) (hl : l₂.length ≤ 1) : l₁ = l₂ := by
  cases l₂ with
  | nil => exact List.perm_nil.mp h
  | cons a t =>
    cases t with
    | nil => exact List.perm_singleton.mp h
    | cons b u => simp at hl

theorem find_eq_of_perm_subsingleton {α : Type} [DecidableEq α] (p : α → Bool)
    {l₁ l₂ : List α} (hp : l₁.Perm l₂) (hc : (l₂.filter p).length ≤ 1) :
    l₁.find? p = l₂.find? p := by
  rw [find_eq_head_filter, find_eq_head_filter,
    perm_eq_of_length_le_one (hp.filter p) hc]

/-- How many known tokens occur (case-insensitively) in a text. -/
def tokenMatchCount (s : String) : Nat :=
  (KNOWN_TOKENS.filter (fun t => containsStr (safe_lower s) (lowerStr t))).length

/-- Claim C9 (amended): the fallback scan iterates the KNOWN_TOKENS set in
its runtime iteration order — an arbitrary permutation of the declared
elements, not necessarily declaration order. When at most one known token
occurs in the text the result is independent of that order (and in
particular agrees with the declaration-order scan); with several matching
tokens the chosen token depends on the iteration order. -/
theorem fallback_order_independent :
    ∀ (order : List String) (s : String),
      order.Perm KNOWN_TOKENS → tokenMatchCount s ≤ 1 →
      parse_amount_and_tokenWith order s = parse_amount_and_tokenWith KNOWN_TOKENS s := by
  intro order s hperm hcount
  have hfb : fallbackToken order (safe_lower s) =
      fallbackToken KNOWN_TOKENS (safe_lower s) := by
    simp only [fallbackToken]
    exact find_eq_of_perm_subsingleton _ hperm hcount
  simp only [parse_amount_and_tokenWith]
  cases hsearch : searchNumber (pySubK (safe_lower s).data) with
  | none => simp [hsearch, hfb]
  | some p =>
    obtain ⟨a, g2⟩ := p
    cases hv : validTok g2 with
    | some tok => simp [hsearch, hv]
    | none => simp [hsearch, hv, hfb]

/-- Witness for claim C9 (amended): the reversed iteration order agrees
with the declaration order on a text containing exactly one known token. -/
theorem fallback_order_independent_witness :
    parse_amount_and_tokenWith KNOWN_TOKENS.reverse "give me usdc yield" =
      parse_amount_and_tokenWith KNOWN_TOKENS "give me usdc yield" :=
  fallback_order_independent KNOWN_TOKENS.reverse "give me usdc yield"
    (by decide) (by decide)

/-- Claim C9 counterexample: a permutation of the declared vocabulary (a
legitimate runtime iteration order of the Python set) under which the
fallback scan picks a different token than the declaration-order scan on
the text "usdc or dai", so the scan is not fixed to declaration order and
the chosen token is not determined by the code when several known tokens
occur. -/
theorem fallback_declaration_order_counterexample :
    (["DAI", "USDC", "USDT", "FRAX", "ETH", "WETH", "BTC", "WBTC", "MATIC",
      "BNB", "AVAX", "ARB", "OP"] : List String).Perm KNOWN_TOKENS ∧
    parse_amount_and_tokenWith
        ["DAI", "USDC", "USDT", "FRAX", "ETH", "WETH", "BTC", "WBTC", "MATIC",
         "BNB", "AVAX", "ARB", "OP"] "usdc or dai" ≠
      parse_amount_and_tokenWith KNOWN_TOKENS "usdc or dai" := by
  constructor
  · decide
  · decide

/-! ### response_formatter.py: constants and helpers -/

def DIVIDER_HEAVY : String := repeatC '=' 70

def DIVIDER_LIGHT : String := repeatC '-' 70

def DIVIDER_DOT : String := repeatC '.' 70

/-- response_formatter.py RISK_LABELS. Every enumeration value is a key of
the source dict, so the "Moderate" get-default of format_header is
unreachable and the lookup is total. -/
def RISK_LABELS : RiskTolerance → String
  | RiskTolerance.CONSERVATIVE => "Conservative (Safety First)"
  | RiskTolerance.MODERATE => "Moderate (Balanced)"
  | RiskTolerance.AGGRESSIVE => "Aggressive (Maximum Yield)"

/-- response_formatter.py CHAIN_SYMBOLS (declared but not consumed by
format_response). -/
def CHAIN_SYMBOLS : List (String × String) :=
  [("ethereum", "ETH"), ("arbitrum", "ARB"), ("optimism", "OP"),
   ("polygon", "MATIC"), ("base", "BASE"), ("avalanche", "AVAX"), ("bsc", "BNB")]

/-- Python int() truncation toward zero. -/
def pyInt (q : ℚ) : Int := if q < 0 then -(Rat.floor (-q)) else Rat.floor q

/-- Python str.title() (ASCII fragment): a letter is uppercased after a
non-letter and lowercased after a letter. -/
def titleAux : Bool → List Char → List Char
  | _, [] => []
  | prev, c :: t =>
    if isAlphaC c then (if prev then lowerC c else upperC c) :: titleAux true t
    else c :: titleAux false t

def pyTitle (s : String) : String := String.mk (titleAux false s.data)

/-- response_formatter.py format_currency. -/
def format_currency (value : ℚ) (decimals : Nat := 2) : String :=
  if value ≥ 1000000000 then "$" ++ renderFixed (value / 1000000000) 2 ++ "B"
  else if value ≥ 1000000 then "$" ++ renderFixed (value / 1000000) 2 ++ "M"
  else if value ≥ 1000 then "$" ++ renderFixed (value / 1000) 1 ++ "K"
  else "$" ++ renderFixedGrouped value decimals

/-- response_formatter.py format_apy. -/
def format_apy (apy : ℚ) : String :=
  if apy ≥ 10 then renderFixed apy 1 ++ "%" else renderFixed apy 2 ++ "%"

/-- response_formatter.py format_risk_bar. A negative repetition count in
Python yields the empty string, matching Int.toNat. -/
def format_risk_bar (risk_score : ℚ) : String :=
  let filled := (pyInt risk_score).toNat
  let label := if risk_score ≤ 3 then "LOW" else if risk_score ≤ 6 then "MED" else "HIGH"
  "[" ++ repeatC '*' filled ++ repeatC '.' (10 - filled) ++ "] " ++
    renderFixed risk_score 1 ++ "/10 " ++ label

/-- response_formatter.py format_time (defined in the source, not consumed
by format_response). -/
def format_time (seconds : Nat) : String :=
  if seconds ≥ 60 then natStr (seconds / 60) ++ "m" else natStr seconds ++ "s"

/-- response_formatter.py format_header. The ellipsis is appended to the
50-character query preview unconditionally, as in the source. -/
def format_header (query : String) (amount : ℚ) (token : String)
    (risk_tolerance : RiskTolerance) (num_results : Nat) : String :=
  "\n" ++ DIVIDER_HEAVY ++ "\n  YIELD INTELLIGENCE REPORT\n" ++ DIVIDER_HEAVY ++
  "\n\n  Query: " ++ pyTake 50 query ++ "...\n  Amount: " ++
  format_currency amount ++ " " ++ token ++ "\n  Risk Profile: " ++
  RISK_LABELS risk_tolerance ++ "\n  Results: " ++ natStr num_results ++
  " found\n\n" ++ DIVIDER_HEAVY

/-- response_formatter.py format_recommendation. -/
def format_recommendation (rec : Recommendation) (detailed : Bool := true) : String :=
  let opp := rec.opportunity
  let lines : List String :=
    ["\n  #" ++ natStr rec.rank ++ "  " ++ opp.protocol ++ "\n      " ++
       opp.symbol ++ " on " ++ pyTitle opp.chain ++ "\n\n" ++ DIVIDER_LIGHT ++ "\n",
     "      APY: " ++ padRight (format_apy opp.apy) 12 ++ " Net APY: " ++
       format_apy rec.net_apy,
     "      TVL: " ++ padRight (format_currency opp.tvl_usd) 12 ++ " Risk: " ++
       format_risk_bar opp.risk_score ++ "\n"]
  let lines := lines ++
    (if detailed then
      ["      REASONING:\n      " ++ pyTake 200 rec.why_recommended ++ "...\n",
       "      EXECUTION STEPS:\n"] ++
      (rec.execution_steps.take 3).map (fun step => "      " ++ step)
    else [])
  pyJoin "\n" (lines ++ ["\n" ++ DIVIDER_LIGHT])

/-- response_formatter.py format_summary. -/
def format_summary (recommendations : List Recommendation) : String :=
  let header := "\n  QUICK COMPARISON\n" ++ DIVIDER_LIGHT ++
    "\n  Rank  Protocol             Chain      APY      Risk\n  " ++ repeatC '-' 60
  let rows := (recommendations.take 5).map (fun rec =>
    "  " ++ padRight (natStr rec.rank) 5 ++ " " ++
    padRight rec.opportunity.protocol 20 ++ " " ++
    padRight (pyTitle rec.opportunity.chain) 10 ++ " " ++
    padRight (format_apy rec.opportunity.apy) 8 ++ " " ++
    repeatC '*' (pyInt (rec.opportunity.risk_score / 2)).toNat)
  pyJoin "\n" (header :: rows) ++ "\n" ++ DIVIDER_LIGHT

/-- response_formatter.py format_error: the bordered ERROR panel. The
query argument is received and ignored, exactly as in the source. -/
def format_error (error : String) (_query : String) : String :=
  "\n" ++ DIVIDER_HEAVY ++ "\n  ERROR\n" ++ DIVIDER_HEAVY ++ "\n\n  " ++
  error ++ "\n\n" ++ DIVIDER_HEAVY

/-- The dict returned by format_response: the rendered text, the outbound
AIMessage (an object carrying the same text in its content attribute) and
the processing-step tag. -/
structure FormatResult where
  formatted_response : String
  messages : List Message
  processing_step : String
deriving DecidableEq

/-- The sections list of response_formatter.py lines 115-122: header,
quick-comparison summary, the top three recommendations in detail, and the
disclaimer. -/
def reportSections (st : AgentState) (query : String) : List String :=
  format_header query (st.amount.getD 0) (pyOrOptStr st.token "USD")
      st.risk_tolerance st.recommendations.length ::
  format_summary st.recommendations ::
  ((st.recommendations.take 3).map (fun rec => format_recommendation rec true) ++
   ["\n  DISCLAIMER: This is not financial advice.\n" ++ DIVIDER_HEAVY])

/-- The code below the error guard of format_response (lines 104-131): the
no-results branch when the recommendations list is falsy, else the report. -/
def format_response_noerror (st : AgentState) : FormatResult :=
  if st.recommendations.isEmpty then
    { formatted_response := "No yield opportunities found for your query: " ++
        pyOrStr st.user_query "Your yield query"
      messages := [Message.withContent (Content.str
        ("No yield opportunities found for your query: " ++
          pyOrStr st.user_query "Your yield query"))]
      processing_step := "formatting_complete_no_results" }
  else
    { formatted_response := pyJoin "\n"
        (reportSections st (pyOrStr st.user_query "Your yield query"))
      messages := [Message.withContent (Content.str (pyJoin "\n"
        (reportSections st (pyOrStr st.user_query "Your yield query"))))]
      processing_step := "formatting_complete" }

/-- response_formatter.py format_response. The error guard of line 96 is
Python truthiness on an optional string: it takes the error branch only
when the error is present AND non-empty; an absent error and an empty
error string both fall through to the no-results/report code. Likewise
state.amount or 0 gives 0 exactly when the amount is absent or 0.0, which
is Option.getD 0; state.token or "USD" and state.user_query or "Your yield
query" replace both absence and the empty string. -/
def format_response (st : AgentState) : FormatResult :=
  match st.error with
  | some e =>
    if e = "" then format_response_noerror st
    else
      { formatted_response := format_error e (pyOrStr st.user_query "Your yield query")
        messages := [Message.withContent (Content.str
          (format_error e (pyOrStr st.user_query "Your yield query")))]
        processing_step := "formatting_complete_error" }
  | none => format_response_noerror st

/-! ### Lemmas about the rendered strings -/

theorem data_append_ne_nil {a : String} (h : a.data ≠ []) (b : String) :
    (a ++ b).data ≠ [] := by
  rw [str_data_append]
  intro hh
  exact h (List.append_eq_nil.mp hh).1

theorem ne_empty_of_data_cons {s : String} {c : Char} {t : List Char}
    (h : s.data = c :: t) : s ≠ "" := by
  intro he
  rw [he] at h
  exact List.noConfusion h

theorem ne_of_data_head {s₁ s₂ : String} {c₁ c₂ : Char} {t₁ t₂ : List Char}
    (h₁ : s₁.data = c₁ :: t₁) (h₂ : s₂.data = c₂ :: t₂) (hc : c₁ ≠ c₂) :
    s₁ ≠ s₂ := by
  intro he
  rw [he, h₂] at h₁
  injection h₁ with hh _
  exact hc hh.symm

theorem isPrefixList_refl : ∀ y : List Char, isPrefixList y y = true := by
  intro y
  induction y with
  | nil => rfl
  | cons a t ih => simp [isPrefixList, ih]

theorem containsList_self (y : List Char) : containsList y y = true := by
  cases y with
  | nil => rfl
  | cons c t => simp [containsList, isPrefixList_refl]

theorem isPrefixList_append {y h : List Char} (hp : isPrefixList y h = true)
    (v : List Char) : isPrefixList y (h ++ v) = true := by
  induction y generalizing h with
  | nil => rfl
  | cons a t ih =>
    cases h with
    | nil => exact absurd hp (by simp [isPrefixList])
    | cons b hs =>
      simp only [isPrefixList, Bool.and_eq_true] at hp
      simp only [List.cons_append, isPrefixList, Bool.and_eq_true]
      exact ⟨hp.1, ih hp.2⟩

theorem containsList_nil_needle : ∀ v : List Char, containsList v [] = true := by
  intro v
  cases v with
  | nil => rfl
  | cons c t => simp [containsList, isPrefixList]

theorem containsList_append_left {u y : List Char} (h : containsList u y = true)
    (v : List Char) : containsList (u ++ v) y = true := by
  induction u with
  | nil =>
    simp only [containsList] at h
    cases y with
    | nil => simpa using containsList_nil_needle v
    | cons c t => simp at h
  | cons a t ih =>
    simp only [containsList, Bool.or_eq_true] at h
    rcases h with h | h
    · simp only [List.cons_append, containsList, Bool.or_eq_true]
      exact Or.inl (isPrefixList_append h v)
    · simp only [List.cons_append, containsList, Bool.or_eq_true]
      exact Or.inr (ih h)

theorem containsList_append_right (x : List Char) {rest y : List Char}
    (h : containsList rest y = true) : containsList (x ++ rest) y = true := by
  induction x with
  | nil => exact h
  | cons a t ih => simp [containsList, ih]

theorem containsStr_append_left {u y : String} (h : containsStr u y = true)
    (v : String) : containsStr (u ++ v) y = true := by
  rw [containsStr, str_data_append]
  exact containsList_append_left h _

theorem containsStr_append_right (x : String) {rest y : String}
    (h : containsStr rest y = true) : containsStr (x ++ rest) y = true := by
  rw [containsStr, str_data_append]
  exact containsList_append_right _ h

theorem containsStr_self (y : String) : containsStr y y = true :=
  containsList_self y.data

/-- The error panel starts with a newline character. -/
theorem format_error_data (e q : String) :
    ∃ t, (format_error e q).data = '\n' :: t := by
  rw [format_error]
  simp only [str_data_append, List.cons_append, List.nil_append, List.append_assoc]
  exact ⟨_, rfl⟩

/-- The error panel contains the error message. -/
theorem format_error_contains (e q : String) :
    containsStr (format_error e q) e = true := by
  rw [format_error]
  apply containsStr_append_left
  apply containsStr_append_left
  exact containsStr_append_right _ (containsStr_self e)

/-- The report header starts with a newline character. -/
theorem format_header_data (q : String) (a : ℚ) (tk : String)
    (r : RiskTolerance) (n : Nat) :
    ∃ t, (format_header q a tk r n).data = '\n' :: t := by
  rw [format_header]
  simp only [str_data_append, List.cons_append, List.nil_append, List.append_assoc]
  exact ⟨_, rfl⟩

/-- The no-results line starts with the letter N. -/
theorem noresults_data (q : String) :
    ∃ t, ("No yield opportunities found for your query: " ++ q).data = 'N' :: t := by
  simp only [str_data_append, List.cons_append, List.nil_append, List.append_assoc]
  exact ⟨_, rfl⟩

/-- The rendered report starts with the header's newline character. -/
theorem report_data (st : AgentState) (q : String) :
    ∃ t, (pyJoin "\n" (reportSections st q)).data = '\n' :: t := by
  rw [reportSections]
  simp only [pyJoin]
  obtain ⟨th, hh⟩ := format_header_data q (st.amount.getD 0)
    (pyOrOptStr st.token "USD") st.risk_tolerance st.recommendations.length
  simp only [str_data_append]
  rw [hh]
  simp only [List.cons_append, List.append_assoc]
  exact ⟨_, rfl⟩

/-- Claim C2: the renderer chooses exactly one of three branches in
priority order. With a truthy error (present and non-empty, matching the
source's if on an optional string) it renders the bordered ERROR panel
containing the error message and ignores the recommendations entirely;
with no error and no recommendations it renders the one-line
no-opportunities message, which differs from every error panel and
contains the literal query text when the query is non-empty; otherwise it
renders the multi-section report. Every branch renders a non-empty
string, and a present-but-empty error string is falsy and renders exactly
as an absent error. -/
theorem format_response_spec :
    ∀ st : AgentState,
      (∀ e, st.error = some e → e ≠ "" →
        (format_response st).formatted_response =
            format_error e (pyOrStr st.user_query "Your yield query") ∧
        containsStr (format_response st).formatted_response e = true ∧
        (∀ recs, format_response { st with recommendations := recs } =
          format_response st) ∧
        (format_response st).formatted_response ≠ "") ∧
      (st.error = none → st.recommendations = [] →
        (format_response st).formatted_response =
            "No yield opportunities found for your query: " ++
              pyOrStr st.user_query "Your yield query" ∧
        (∀ e q, (format_response st).formatted_response ≠ format_error e q) ∧
        (st.user_query ≠ "" →
          containsStr (format_response st).formatted_response st.user_query = true) ∧
        (format_response st).formatted_response ≠ "") ∧
      (st.error = none → st.recommendations ≠ [] →
        (format_response st).formatted_response =
            pyJoin "\n" (reportSections st (pyOrStr st.user_query "Your yield query")) ∧
        (format_response st).formatted_response ≠ "") ∧
      (st.error = some "" →
        format_response st = format_response { st with error := none }) := by
  intro st
  refine ⟨?_, ?_, ?_, ?_⟩
  · intro e he hne
    refine ⟨?_, ?_, ?_, ?_⟩
    · simp only [format_response, he]
      rw [if_neg hne]
    · simp only [format_response, he]
      rw [if_neg hne]
      exact format_error_contains e (pyOrStr st.user_query "Your yield query")
    · intro recs
      simp [format_response, he, hne]
    · simp only [format_response, he]
      rw [if_neg hne]
      obtain ⟨t, ht⟩ := format_error_data e (pyOrStr st.user_query "Your yield query")
      exact ne_empty_of_data_cons ht
  · intro he hrec
    have hie : st.recommendations.isEmpty = true := by rw [hrec]; rfl
    refine ⟨by simp [format_response, format_response_noerror, he, hie], ?_, ?_, ?_⟩
    · intro e q
      obtain ⟨t₁, h₁⟩ := noresults_data (pyOrStr st.user_query "Your yield query")
      obtain ⟨t₂, h₂⟩ := format_error_data e q
      simp only [format_response, format_response_noerror, he, hie, if_true]
      exact ne_of_data_head h₁ h₂ (by decide)
    · intro hq
      simp only [format_response, format_response_noerror, he, hie, if_true]
      rw [pyOrStr, if_neg hq]
      exact containsStr_append_right _ (containsStr_self st.user_query)
    · simp only [format_response, format_response_noerror, he, hie, if_true]
      obtain ⟨t, ht⟩ := noresults_data (pyOrStr st.user_query "Your yield query")
      exact ne_empty_of_data_cons ht
  · intro he hrec
    have hie : st.recommendations.isEmpty = false := by
      cases hr : st.recommendations with
      | nil => exact absurd hr hrec
      | cons a t => rfl
    refine ⟨by simp [format_response, format_response_noerror, he, hie], ?_⟩
    simp only [format_response, format_response_noerror, he, hie,
      Bool.false_eq_true, if_false]
    obtain ⟨t, ht⟩ := report_data st (pyOrStr st.user_query "Your yield query")
    exact ne_empty_of_data_cons ht
  · intro he
    simp [format_response, format_response_noerror, he, reportSections]

/-- A terminal state carrying an error. -/
def sampleErrorState : AgentState := { user_query := "find yield", error := some "boom" }

/-- An error-free terminal state with no recommendations. -/
def sampleEmptyState : AgentState := { user_query := "find yield" }

/-- Witness for claim C2: the error branch renders a non-empty string, and
the no-results branch renders the expected one-liner. -/
theorem format_response_spec_witness :
    (format_response sampleErrorState).formatted_response ≠ "" ∧
    (format_response sampleEmptyState).formatted_response =
      "No yield opportunities found for your query: find yield" :=
  ⟨((format_response_spec sampleErrorState).1 "boom" rfl (by decide)).2.2.2,
   ((format_response_spec sampleEmptyState).2.1 rfl rfl).1.trans (by decide)⟩

end YieldAgent
